import Mathlib

/-!
Verification development for the sentiment-dashboard application (`st.py`).

The application loads a pre-computed sentiment report (JSON or CSV),
filters the resulting row table by sentiment label and minimum confidence
score, and derives display aggregates (percentages, score statistics,
word frequencies) and a CSV export.

The shallow embedding below models:
  * Python strings as `List Char` (`PyStr`);
  * a data row (`Row`) with the four recognized columns
    `comment`, `sentiment_label`, `sentiment_score`, `summary`,
    where a missing/NaN score is `Option.none`;
  * the pandas filtering pipeline of `display_analysis_results`
    (lines 154-159): label membership via `Series.isin` and the score
    threshold via `Series >= min_confidence`, where a comparison with
    NaN yields `False`;
  * the CSV-path sentiment summary of `main` (lines 342-350) built on
    `value_counts` / `dict.get`;
  * the word-frequency pipeline (lines 233-241);
  * sample statistics as produced by `DataFrame.describe` (std with
    divisor N-1, undefined/NaN for a single value), modelled through the
    sample variance so everything stays in `ℚ`;
  * a cell-level model of `DataFrame.to_csv(index=False)` followed by
    `pd.read_csv`: the CSV file is represented by its matrix of cell
    strings (quoting is a transport-layer inverse pair and is not
    re-modelled), with pandas default NA markers, per-column dtype
    inference, decimal and scientific numeric literals, infinity
    spellings and boolean literal spellings;
  * the `main` upload dispatch with its try/except error handling.
-/

/-- A Python string, modelled as its sequence of characters. -/
abbrev PyStr := List Char

/-- Python `str.lower`, character by character. -/
def lowerStr (s : PyStr) : PyStr := s.map Char.toLower

/-- Accumulator-based whitespace splitter: `pyWordsAux acc s` processes `s`
with the (reversed) current word `acc`.  Mirrors Python `str.split()` with
no arguments: split on runs of whitespace, producing no empty tokens. -/
def pyWordsAux : PyStr → PyStr → List PyStr
  | acc, [] => if acc = [] then [] else [acc.reverse]
  | acc, c :: cs =>
    if c.isWhitespace then
      (if acc = [] then [] else [acc.reverse]) ++ pyWordsAux [] cs
    else pyWordsAux (c :: acc) cs

/-- Python `str.split()` (whitespace tokenization, empty tokens dropped). -/
def pyWords (s : PyStr) : List PyStr := pyWordsAux [] s

/-- Python `" ".join(strings)`. -/
def joinSpace : List PyStr → PyStr
  | [] => []
  | [s] => s
  | s :: t :: rest => s ++ ' ' :: joinSpace (t :: rest)

/-- One analyzed comment record, with the four recognized columns.
`sentiment_score` is `none` when the cell is missing/NaN in the frame. -/
structure Row where
  comment : PyStr
  sentiment_label : PyStr
  sentiment_score : Option ℚ
  summary : PyStr
deriving DecidableEq

/-- The in-memory table: the ordered rows plus which of the optional
columns are present in the underlying DataFrame (the filter code in
`display_analysis_results` tests `'sentiment_label' in df.columns` and
`'sentiment_score' in df.columns`). -/
structure Table where
  rows : List Row
  hasLabelCol : Bool
  hasScoreCol : Bool
deriving DecidableEq

/-- Label criterion of line 157: `filtered_df['sentiment_label'].isin(sentiment_filter)`. -/
def labelKeep (sentiment_filter : List PyStr) (r : Row) : Bool :=
  decide (r.sentiment_label ∈ sentiment_filter)

/-- Score criterion of line 159: `filtered_df['sentiment_score'] >= min_confidence`.
In pandas a comparison whose operand is NaN evaluates to `False`, so a row
with a missing score never satisfies the criterion. -/
def scoreKeep (min_confidence : ℚ) (r : Row) : Bool :=
  match r.sentiment_score with
  | some s => decide (min_confidence ≤ s)
  | none => false

/-- Lines 155-157: the label filter is applied only when the multiselect
value is non-empty (Python truthiness of the list) and the label column
exists; otherwise the rows pass through unchanged. -/
def rowsAfterLabel (t : Table) (sentiment_filter : List PyStr) : List Row :=
  if sentiment_filter ≠ [] ∧ t.hasLabelCol = true then
    t.rows.filter (labelKeep sentiment_filter)
  else t.rows

/-- Lines 154-159 of `display_analysis_results`: the full filtering stage,
label criterion then score criterion (the latter applied whenever the
score column exists). -/
def applyFilters (t : Table) (sentiment_filter : List PyStr) (min_confidence : ℚ) : Table :=
  { t with rows :=
      if t.hasScoreCol = true then
        (rowsAfterLabel t sentiment_filter).filter (scoreKeep min_confidence)
      else rowsAfterLabel t sentiment_filter }

/-- The distinct labels present, in first-seen order: `df['sentiment_label'].unique()`. -/
def distinctLabels (t : Table) : List PyStr :=
  (t.rows.map (·.sentiment_label)).dedup

/-- The score column as used by `describe()`: NaN entries are ignored by
the count/mean/std statistics. -/
def scoreSeries (t : Table) : List ℚ :=
  t.rows.filterMap (·.sentiment_score)

/-- Sample variance as used by `Series.describe` (`std` is its square
root): divisor N-1, and NaN (here `none`) when fewer than two values are
available.  The displayed standard deviation is 0 exactly when this is
`some 0`, and NaN exactly when this is `none`. -/
def sampleVarOpt (l : List ℚ) : Option ℚ :=
  if l.length ≤ 1 then none
  else
    let m : ℚ := l.sum / l.length
    some ((l.map (fun x => (x - m) ^ 2)).sum / ((l.length : ℚ) - 1))

/-- `Series.value_counts()` restricted to what `.get` can observe: each
distinct value paired with its number of occurrences.  (pandas orders the
pairs by descending count, which only affects display order, never the
result of a key lookup.) -/
def valueCounts (l : List PyStr) : List (PyStr × ℕ) :=
  l.dedup.map (fun s => (s, l.count s))

/-- `counts.get(key, default)` on the result of `value_counts`. -/
def vcGet (vc : List (PyStr × ℕ)) (k : PyStr) (d : ℚ) : ℚ :=
  match vc.lookup k with
  | some n => (n : ℚ)
  | none => d

/-- Line 348 of `main` (CSV path):
`(sentiment_counts.get('POSITIVE', sentiment_counts.get('positive', 0)) / total) * 100`. -/
def positive_percentage (rows : List Row) : ℚ :=
  vcGet (valueCounts (rows.map (·.sentiment_label))) "POSITIVE".toList
      (vcGet (valueCounts (rows.map (·.sentiment_label))) "positive".toList 0)
    / (rows.length : ℚ) * 100

/-- Line 349 of `main` (CSV path):
`(sentiment_counts.get('NEGATIVE', sentiment_counts.get('negative', 0)) / total) * 100`. -/
def negative_percentage (rows : List Row) : ℚ :=
  vcGet (valueCounts (rows.map (·.sentiment_label))) "NEGATIVE".toList
      (vcGet (valueCounts (rows.map (·.sentiment_label))) "negative".toList 0)
    / (rows.length : ℚ) * 100

/-- Line 238: the stop-word set, transcribed from the source set literal
(the Python literal repeats some entries; set semantics makes the
repetitions redundant, and for list membership they are equally
redundant). -/
def stop_words : List PyStr :=
  (["the", "and", "or", "but", "in", "on", "at", "to", "for", "of", "with",
    "by", "from", "up", "about", "into", "through", "during", "before",
    "after", "above", "below", "between", "among", "through", "during",
    "before", "after", "above", "below", "between"]).map String.toList

/-- Line 234: `all_text = " ".join(filtered_df['comment'].astype(str))`. -/
def allText (rows : List Row) : PyStr :=
  joinSpace (rows.map (·.comment))

/-- Line 235: `words = all_text.lower().split()`. -/
def tokensOf (rows : List Row) : List PyStr :=
  pyWords (lowerStr (allText rows))

/-- Line 239: `[word for word in words if word not in stop_words and len(word) > 2]`. -/
def keptWords (rows : List Row) : List PyStr :=
  (tokensOf rows).filter (fun w => decide (w ∉ stop_words ∧ 2 < w.length))

/-- Line 241: `pd.Series(words).value_counts().head(20)`: occurrence counts
of the distinct kept tokens, ordered by descending count (stable insertion
sort, so ties keep first-seen order), truncated to the first 20 entries. -/
def word_freq (rows : List Row) : List (PyStr × ℕ) :=
  (List.insertionSort (fun a b : PyStr × ℕ => b.2 ≤ a.2)
    (valueCounts (keptWords rows))).take 20

/-- The tokens of the filtered rows, tokenizing each `comment` field
separately (lower-cased, whitespace-delimited).  The source instead joins
the comments with a single space before splitting; the two agree because
the join inserts a whitespace separator, which is proved below. -/
def fieldTokens (rows : List Row) : List PyStr :=
  rows.flatMap (fun r => pyWords (lowerStr r.comment))

/-- Modelled from the spec: the spec describes `positive_percentage` as a
case-insensitive count of labels matching "positive" (so including
"Positive", and pooling "POSITIVE" with "positive") over the total row
count, times 100.  Stated here only for comparison with the
implementation formula `positive_percentage`. -/
def specPositivePercentage (rows : List Row) : ℚ :=
  ((rows.map (·.sentiment_label)).countP (fun l => lowerStr l = "positive".toList) : ℚ)
    / (rows.length : ℚ) * 100

/-- The default NA markers of `pd.read_csv`: a cell whose content is one
of these strings is read back as NaN. -/
def naValues : List PyStr :=
  (["", "#N/A", "#N/A N/A", "#NA", "-1.#IND", "-1.#QNAN", "-NaN", "-nan",
    "1.#IND", "1.#QNAN", "<NA>", "N/A", "NA", "NULL", "NaN", "None",
    "n/a", "nan", "null"]).map String.toList

/-- Whether a cell string is one of the pandas NA markers. -/
def isNA (c : PyStr) : Bool := decide (c ∈ naValues)

/-- Value of a decimal digit character. -/
def digitVal (c : Char) : Option ℕ :=
  if c.isDigit then some (c.toNat - '0'.toNat) else none

/-- Read a run of decimal digits left to right, failing on a non-digit. -/
def digitsValAux : ℕ → List Char → Option ℕ
  | acc, [] => some acc
  | acc, c :: cs =>
    match digitVal c with
    | some d => digitsValAux (10 * acc + d) cs
    | none => none

/-- Parse the finite numeric literals pandas type inference recognizes:
`[+|-]mant[(e|E)[+|-]ddd]` with mantissa `ddd[.ddd]` (at least one digit).
Infinity spellings are recognized separately by `isInfCell`; a string
outside both shapes is treated as non-numeric. -/
def parseDecimal (s : PyStr) : Option ℚ :=
  let mantissa : PyStr → Option ℚ := fun t =>
    match t.splitOn '.' with
    | [intPart] =>
      if intPart = [] then none
      else (digitsValAux 0 intPart).map (fun n => mkRat n 1)
    | [intPart, fracPart] =>
      if intPart = [] ∧ fracPart = [] then none
      else
        match digitsValAux 0 intPart, digitsValAux 0 fracPart with
        | some i, some f => some (mkRat (i * 10 ^ fracPart.length + f) (10 ^ fracPart.length))
        | _, _ => none
    | _ => none
  let signedExp : PyStr → Option (Bool × ℕ) := fun t =>
    match t with
    | '-' :: r => if r = [] then none else (digitsValAux 0 r).map (fun n => (true, n))
    | '+' :: r => if r = [] then none else (digitsValAux 0 r).map (fun n => (false, n))
    | r => if r = [] then none else (digitsValAux 0 r).map (fun n => (false, n))
  let core : PyStr → Option ℚ := fun t =>
    let u := t.map (fun c => if c = 'E' then 'e' else c)
    match u.splitOn 'e' with
    | [m] => mantissa m
    | [m, ex] =>
      if m = [] then none
      else
        match mantissa m, signedExp ex with
        | some q, some (sgn, n) =>
          some (if sgn then mkRat q.num (q.den * 10 ^ n) else mkRat (q.num * 10 ^ n) q.den)
        | _, _ => none
    | _ => none
  match s with
  | '-' :: rest => (core rest).map (fun q => -q)
  | '+' :: rest => core rest
  | rest => core rest

/-- The infinity spellings pandas recognizes, compared case-insensitively. -/
def infStrings : List PyStr :=
  (["inf", "infinity"]).map String.toList

/-- Whether a cell is an infinity literal `[+|-](inf|infinity)` in any
letter case: pandas reads such a cell as a float infinity, not a string. -/
def isInfCell (s : PyStr) : Bool :=
  match s with
  | '-' :: rest => decide (lowerStr rest ∈ infStrings)
  | '+' :: rest => decide (lowerStr rest ∈ infStrings)
  | rest => decide (lowerStr rest ∈ infStrings)

/-- Sign of an infinity cell. -/
def infIsNeg (s : PyStr) : Bool :=
  match s with
  | '-' :: _ => true
  | _ => false

/-- The boolean literals pandas `read_csv` converts to `True`. -/
def trueStrings : List PyStr :=
  (["TRUE", "True", "true"]).map String.toList

/-- The boolean literals pandas `read_csv` converts to `False`. -/
def falseStrings : List PyStr :=
  (["FALSE", "False", "false"]).map String.toList

/-- Smallest exponent `k ≤ 30` with `d ∣ 10 ^ k`, if any: the number of
decimal digits needed to write a fraction with denominator `d` exactly. -/
def decExp (d : ℕ) : Option ℕ :=
  (List.range 31).find? (fun k => 10 ^ k % d == 0)

/-- Pad a digit string on the left with zeros up to length `n`. -/
def padZeros (l : List Char) (n : ℕ) : List Char :=
  List.replicate (n - l.length) '0' ++ l

/-- Decimal rendering of a rational, as `to_csv` renders a float cell:
sign, integer digits, and a fractional part exactly when one is needed.
A rational with no finite decimal expansion (never the case for a binary
float) renders as a placeholder that parses back as nothing. -/
def encodeNum (q : ℚ) : PyStr :=
  match decExp q.den with
  | none => ['?']
  | some k =>
    let m : ℕ := q.num.natAbs * (10 ^ k / q.den)
    let ds := padZeros (Nat.toDigits 10 m) (k + 1)
    (if q.num < 0 then ['-'] else []) ++
      ds.take (ds.length - k) ++
      (if k = 0 then [] else '.' :: ds.drop (ds.length - k))

/-- A cell value as materialized by `pd.read_csv` after dtype inference
(`vInf` carries the sign of a float infinity). -/
inductive CVal where
  | vStr (s : PyStr)
  | vNum (q : ℚ)
  | vInf (neg : Bool)
  | vBool (b : Bool)
  | vNaN
deriving DecidableEq

/-- The exported CSV file at cell level: one list of cell strings per
recognized column (CSV quoting and unquoting are exact inverses at the
byte level and are not re-modelled). -/
structure CsvFile where
  commentCol : List PyStr
  labelCol : List PyStr
  scoreCol : List PyStr
  summaryCol : List PyStr
deriving DecidableEq

/-- Line 294 / 305: `df.to_csv(index=False)`.  A string cell is written as
its content, a float cell as its decimal rendering, a NaN cell as the
empty field. -/
def exportCsv (rows : List Row) : CsvFile where
  commentCol := rows.map (·.comment)
  labelCol := rows.map (·.sentiment_label)
  scoreCol := rows.map (fun r =>
    match r.sentiment_score with
    | some q => encodeNum q
    | none => [])
  summaryCol := rows.map (·.summary)

/-- Per-column dtype inference of `pd.read_csv`: a column all of whose
non-NA cells are numeric (a finite decimal/scientific literal or an
infinity spelling) becomes a float column; failing that, a column all of
whose non-NA cells are boolean literals (any of the TRUE/True/true and
FALSE/False/false spellings) becomes boolean; otherwise the column keeps
its strings, with NA markers read as NaN in every case. -/
def inferColumn (cells : List PyStr) : List CVal :=
  if cells.all (fun c => isNA c || (parseDecimal c).isSome || isInfCell c) then
    cells.map (fun c =>
      if isNA c then CVal.vNaN
      else
        match parseDecimal c with
        | some q => CVal.vNum q
        | none => if isInfCell c then CVal.vInf (infIsNeg c) else CVal.vNaN)
  else if cells.all (fun c => isNA c || c ∈ trueStrings || c ∈ falseStrings) then
    cells.map (fun c =>
      if isNA c then CVal.vNaN else CVal.vBool (c ∈ trueStrings))
  else
    cells.map (fun c => if isNA c then CVal.vNaN else CVal.vStr c)

/-- A reloaded row: the four recognized columns as read-back cell values. -/
structure RawRow where
  comment : CVal
  sentiment_label : CVal
  sentiment_score : CVal
  summary : CVal
deriving DecidableEq

/-- Zip four equally long columns back into rows. -/
def zipRows : List CVal → List CVal → List CVal → List CVal → List RawRow
  | a :: as, b :: bs, c :: cs, d :: ds => ⟨a, b, c, d⟩ :: zipRows as bs cs ds
  | _, _, _, _ => []

/-- Line 331: `pd.read_csv` on the exported bytes, at cell level. -/
def reload (f : CsvFile) : List RawRow :=
  zipRows (inferColumn f.commentCol) (inferColumn f.labelCol)
    (inferColumn f.scoreCol) (inferColumn f.summaryCol)

/-- Export a filtered view to CSV and load the bytes back. -/
def roundTrip (rows : List Row) : List RawRow :=
  reload (exportCsv rows)

/-- The read-back cell values a row should produce for the round trip to
be lossless: strings come back as themselves, a defined score as the same
number, a missing score as NaN. -/
def rowToRaw (r : Row) : RawRow where
  comment := CVal.vStr r.comment
  sentiment_label := CVal.vStr r.sentiment_label
  sentiment_score :=
    match r.sentiment_score with
    | some q => CVal.vNum q
    | none => CVal.vNaN
  summary := CVal.vStr r.summary

/-- A string field that survives `read_csv` unchanged: not an NA marker,
not number-shaped (neither a finite decimal/scientific literal nor an
infinity spelling), and not one of the boolean literal spellings. -/
def stableStr (s : PyStr) : Prop :=
  s ∉ naValues ∧ parseDecimal s = none ∧ isInfCell s = false
    ∧ s ∉ trueStrings ∧ s ∉ falseStrings

instance (s : PyStr) : Decidable (stableStr s) := by
  unfold stableStr
  infer_instance

/-- A score value whose decimal rendering parses back to itself (true of
every binary float, whose decimal expansion is finite). -/
def numRoundTrips (q : ℚ) : Prop :=
  parseDecimal (encodeNum q) = some q

instance (q : ℚ) : Decidable (numRoundTrips q) := by
  unfold numRoundTrips
  infer_instance

/-- The application state visible to the user: the installed table (if
any) and the reported error message (if any).  Before any upload both are
absent. -/
structure AppState where
  table : Option (List Row)
  errorMsg : Option String
deriving DecidableEq

/-- The state before any upload. -/
def initialState : AppState := ⟨none, none⟩

/-- Lines 318-326 of `main`: the JSON branch.  A successful parse installs
the parsed table and displays it; any exception is caught, the error is
reported with its cause, and nothing is installed. -/
def runJsonUpload (parsed : Except String (List Row)) : AppState :=
  match parsed with
  | Except.ok rows => ⟨some rows, none⟩
  | Except.error e => ⟨none, some ("Error loading JSON file: " ++ e)⟩

/-- Lines 328-361 of `main`: the CSV branch, with the same try/except
shape. -/
def runCsvUpload (parsed : Except String (List Row)) : AppState :=
  match parsed with
  | Except.ok rows => ⟨some rows, none⟩
  | Except.error e => ⟨none, some ("Error loading CSV file: " ++ e)⟩

/-- Occurrences of one exact label string among the rows, the quantity a
`value_counts` lookup reports. -/
def labelCount (rows : List Row) (lab : PyStr) : ℕ :=
  (rows.map (·.sentiment_label)).count lab

/-- A row whose score survives the numeric leg of the CSV round trip: a
defined score must render and parse back to itself (a missing score has
nothing to preserve). -/
def scoreStable (r : Row) : Prop :=
  match r.sentiment_score with
  | some q => numRoundTrips q
  | none => True

instance (r : Row) : Decidable (scoreStable r) := by
  unfold scoreStable
  cases r.sentiment_score with
  | none => exact isTrue trivial
  | some q => exact inferInstanceAs (Decidable (numRoundTrips q))

/-- Demonstration row with a defined high score and a positive label. -/
def rowPos : Row :=
  ⟨"great product overall".toList, "POSITIVE".toList, some (mkRat 995 1000), "liked".toList⟩

/-- Demonstration row with a defined mid score and a negative label. -/
def rowNeg : Row :=
  ⟨"bad quality item".toList, "NEGATIVE".toList, some (mkRat 1 2), "disliked".toList⟩

/-- Demonstration row whose sentiment score is missing (NaN). -/
def rowNaN : Row :=
  ⟨"meh overall".toList, "NEUTRAL".toList, none, "summ".toList⟩

/-- Demonstration row whose label uses the capitalized spelling the spec
believes is matched case-insensitively. -/
def rowCap : Row :=
  ⟨"nice one".toList, "Positive".toList, some (mkRat 9 10), "summ".toList⟩

/-- Demonstration row whose comment is the empty string: its CSV cell is
empty, which `read_csv` reads back as NaN. -/
def rowEmptyComment : Row :=
  ⟨[], "POSITIVE".toList, some (mkRat 1 2), "fine".toList⟩

theorem scoreKeep_eq_true {m : ℚ} {r : Row} :
    scoreKeep m r = true ↔ ∃ q, r.sentiment_score = some q ∧ m ≤ q := by
  unfold scoreKeep
  cases h : r.sentiment_score <;> simp [h]

theorem filter_self_idem {α : Type} (p : α → Bool) (l : List α) :
    (l.filter p).filter p = l.filter p := by
  induction l with
  | nil => rfl
  | cons a l ih => cases hp : p a <;> simp [List.filter_cons, hp, ih]

theorem filter_pqpq {α : Type} (p q : α → Bool) (l : List α) :
    (((l.filter p).filter q).filter p).filter q = (l.filter p).filter q := by
  simp only [List.filter_filter]
  apply List.filter_congr
  intro a _
  cases p a <;> cases q a <;> rfl

theorem filter_and_idem {α : Type} (p q : α → Bool) (l : List α) :
    l.filter (fun a => p a && (q a && (p a && q a))) = l.filter (fun a => p a && q a) := by
  apply List.filter_congr
  intro a _
  cases p a <;> cases q a <;> rfl

/-- C1: the claim asserts the threshold keeps rows with an undefined
(NaN) `sentiment_score`.  The code compares `sentiment_score >=
min_confidence` in pandas, where a NaN comparison is `False`: rows with
an undefined score are always dropped once the score column exists, and
a row passes the threshold exactly when it has a defined score that is at
least `min_confidence`. -/
theorem c1_undefined_scores_dropped (t : Table) (sentiment_filter : List PyStr) (m : ℚ)
    (ht : t.hasScoreCol = true) :
    (applyFilters t sentiment_filter m).rows
        = (rowsAfterLabel t sentiment_filter).filter (scoreKeep m)
      ∧ (∀ r : Row, r.sentiment_score = none → scoreKeep m r = false)
      ∧ (∀ r : Row, ∀ q : ℚ, r.sentiment_score = some q → (scoreKeep m r = true ↔ m ≤ q)) := by
  refine ⟨by simp [applyFilters, ht], ?_, ?_⟩
  · intro r h
    simp [scoreKeep, h]
  · intro r q h
    simp [scoreKeep, h]

/-- Witness for C1's amended statement at a concrete table: the NaN row
fails the criterion, the scored row passes it iff its score clears the
threshold. -/
theorem c1_witness :
    (applyFilters ⟨[rowNaN, rowPos], true, true⟩ [] 0).rows
        = (rowsAfterLabel ⟨[rowNaN, rowPos], true, true⟩ []).filter (scoreKeep 0)
      ∧ scoreKeep 0 rowNaN = false
      ∧ (scoreKeep 0 rowPos = true ↔ (0 : ℚ) ≤ mkRat 995 1000) := by
  have h := c1_undefined_scores_dropped ⟨[rowNaN, rowPos], true, true⟩ [] 0 rfl
  exact ⟨h.1, h.2.1 rowNaN rfl, h.2.2 rowPos (mkRat 995 1000) rfl⟩

/-- C1 counterexample to the claim as stated: a row with an undefined
score is not kept by the filter, even with the lowest threshold. -/
theorem c1_counterexample :
    rowNaN ∉ (applyFilters ⟨[rowNaN], true, true⟩ [] 0).rows := by decide

/-- C2 (amended): filtering with the full set of distinct labels and
`min_score = 0` returns the table unchanged, provided every row has a
defined, nonnegative sentiment score (the invariant for scores that are
present; rows with NaN scores are dropped by the code, see C1). -/
theorem c2_full_criteria_identity (t : Table)
    (h : ∀ r ∈ t.rows, ∃ q, r.sentiment_score = some q ∧ 0 ≤ q) :
    applyFilters t (distinctLabels t) 0 = t := by
  have hrows : rowsAfterLabel t (distinctLabels t) = t.rows := by
    unfold rowsAfterLabel
    split
    · apply List.filter_eq_self.2
      intro r hr
      simp only [labelKeep, distinctLabels, decide_eq_true_eq, List.mem_dedup]
      exact List.mem_map_of_mem _ hr
    · rfl
  unfold applyFilters
  rw [hrows]
  split
  · have hkeep : t.rows.filter (scoreKeep 0) = t.rows := by
      apply List.filter_eq_self.2
      intro r hr
      obtain ⟨q, hq, h0⟩ := h r hr
      simp [scoreKeep, hq, h0]
    rw [hkeep]
  · rfl

/-- Witness for C2's amended statement on a table whose two rows carry
defined, nonnegative scores. -/
theorem c2_witness :
    applyFilters ⟨[rowPos, rowNeg], true, true⟩
        (distinctLabels ⟨[rowPos, rowNeg], true, true⟩) 0
      = ⟨[rowPos, rowNeg], true, true⟩ := by
  apply c2_full_criteria_identity
  intro r hr
  simp only [List.mem_cons, List.not_mem_nil, or_false] at hr
  rcases hr with rfl | rfl
  · exact ⟨mkRat 995 1000, rfl, by decide⟩
  · exact ⟨mkRat 1 2, rfl, by decide⟩

/-- C2 counterexample to the claim as stated: with a row whose score is
missing, filtering with all distinct labels and threshold 0 loses the
row. -/
theorem c2_counterexample :
    (applyFilters ⟨[rowNaN], true, true⟩ (distinctLabels ⟨[rowNaN], true, true⟩) 0).rows
      ≠ (⟨[rowNaN], true, true⟩ : Table).rows := by decide

/-- C5: applying the same filter criteria to the already filtered view
reproduces it exactly (same rows, same order): the filtering stage is
idempotent. -/
theorem c5_filter_idempotent (t : Table) (sentiment_filter : List PyStr) (m : ℚ) :
    applyFilters (applyFilters t sentiment_filter m) sentiment_filter m
      = applyFilters t sentiment_filter m := by
  rcases t with ⟨rows, hl, hs⟩
  unfold applyFilters rowsAfterLabel
  cases hl <;> cases hs <;> rcases sentiment_filter with _ | ⟨f, fs⟩ <;>
    simp [filter_self_idem, filter_pqpq, filter_and_idem]

/-- C10: an empty label selection disables the label criterion entirely
(Python truthiness of the empty list): the result is exactly the rows
passing the score threshold, not an empty table. -/
theorem c10_empty_selection_skips_label_filter (t : Table) (m : ℚ)
    (_ht : t.hasLabelCol = true) :
    (applyFilters t [] m).rows
      = if t.hasScoreCol = true then t.rows.filter (scoreKeep m) else t.rows := by
  unfold applyFilters rowsAfterLabel
  simp

/-- Witness for C10 at a concrete table with a label column: the score
criterion alone decides membership. -/
theorem c10_witness :
    (applyFilters ⟨[rowPos, rowNaN], true, true⟩ [] (mkRat 1 2)).rows
      = if (⟨[rowPos, rowNaN], true, true⟩ : Table).hasScoreCol = true
        then [rowPos, rowNaN].filter (scoreKeep (mkRat 1 2))
        else [rowPos, rowNaN] :=
  c10_empty_selection_skips_label_filter ⟨[rowPos, rowNaN], true, true⟩ (mkRat 1 2) rfl

/-- C4: the claim asserts the single-scored-row standard deviation is
displayed as 0.  `Series.describe` computes the sample statistic with
divisor N-1, which is undefined for one value: pandas yields NaN and the
dashboard formats it as `nan`, not 0.  Amended: for a filtered view whose
score column holds exactly one defined value, the sample variance (and
hence the displayed standard deviation) is undefined (NaN). -/
theorem c4_single_row_std_undefined (t : Table) (h : (scoreSeries t).length = 1) :
    sampleVarOpt (scoreSeries t) = none := by
  unfold sampleVarOpt
  rw [if_pos (by omega)]

/-- Witness for C4's amended statement on a one-row table with a defined
score. -/
theorem c4_witness :
    sampleVarOpt (scoreSeries ⟨[rowPos], true, true⟩) = none :=
  c4_single_row_std_undefined ⟨[rowPos], true, true⟩ (by decide)

/-- C4 counterexample to the claim as stated: for the one-row view the
statistic is not 0 (it is NaN, i.e. undefined). -/
theorem c4_counterexample :
    sampleVarOpt (scoreSeries ⟨[rowPos], true, true⟩) ≠ some 0 := by decide

/-- C9: a failed parse (malformed JSON or unreadable CSV) is caught by
the `try/except` of `main`: the reported message carries the underlying
cause, and the table component of the application state is exactly the
pre-upload (empty) state — no table, partial or otherwise, is
installed. -/
theorem c9_parse_failure_keeps_empty_state (e : String) :
    (runJsonUpload (Except.error e)).table = initialState.table
      ∧ (runJsonUpload (Except.error e)).errorMsg
          = some ("Error loading JSON file: " ++ e)
      ∧ (runCsvUpload (Except.error e)).table = initialState.table
      ∧ (runCsvUpload (Except.error e)).errorMsg
          = some ("Error loading CSV file: " ++ e) :=
  ⟨rfl, rfl, rfl, rfl⟩

theorem lookup_graphMap (f : PyStr → ℕ) (xs : List PyStr) (k : PyStr) :
    (xs.map (fun s => (s, f s))).lookup k = if k ∈ xs then some (f k) else none := by
  induction xs with
  | nil => rfl
  | cons a xs ih =>
    by_cases hka : k = a
    · subst hka
      simp [List.lookup]
    · have hb : (k == a) = false := beq_eq_false_iff_ne.2 hka
      simp [List.lookup, hb, List.mem_cons, hka, ih]

theorem vcGet_eq (l : List PyStr) (k : PyStr) (d : ℚ) :
    vcGet (valueCounts l) k d = if k ∈ l then (l.count k : ℚ) else d := by
  unfold vcGet valueCounts
  simp only [lookup_graphMap, List.mem_dedup]
  by_cases h : k ∈ l <;> simp [h]

theorem pos_pct_eq (rows : List Row) :
    positive_percentage rows
      = ((if 0 < labelCount rows "POSITIVE".toList then labelCount rows "POSITIVE".toList
          else labelCount rows "positive".toList : ℕ) : ℚ) / (rows.length : ℚ) * 100 := by
  unfold positive_percentage labelCount
  rw [vcGet_eq, vcGet_eq, apply_ite (fun n : ℕ => (n : ℚ))]
  by_cases hP : "POSITIVE".toList ∈ rows.map (·.sentiment_label)
  · rw [if_pos hP, if_pos (List.count_pos_iff.2 hP)]
  · rw [if_neg hP, List.count_eq_zero.2 hP]
    simp only [lt_self_iff_false, if_false]
    by_cases hp : "positive".toList ∈ rows.map (·.sentiment_label)
    · rw [if_pos hp]
    · rw [if_neg hp, List.count_eq_zero.2 hp]
      norm_num

theorem neg_pct_eq (rows : List Row) :
    negative_percentage rows
      = ((if 0 < labelCount rows "NEGATIVE".toList then labelCount rows "NEGATIVE".toList
          else labelCount rows "negative".toList : ℕ) : ℚ) / (rows.length : ℚ) * 100 := by
  unfold negative_percentage labelCount
  rw [vcGet_eq, vcGet_eq, apply_ite (fun n : ℕ => (n : ℚ))]
  by_cases hN : "NEGATIVE".toList ∈ rows.map (·.sentiment_label)
  · rw [if_pos hN, if_pos (List.count_pos_iff.2 hN)]
  · rw [if_neg hN, List.count_eq_zero.2 hN]
    simp only [lt_self_iff_false, if_false]
    by_cases hn : "negative".toList ∈ rows.map (·.sentiment_label)
    · rw [if_pos hn]
    · rw [if_neg hn, List.count_eq_zero.2 hn]
      norm_num

/-- C3: the claim asserts case-insensitive label matching (pooling
"POSITIVE" with "positive" and counting "Positive").  The code uses
`value_counts().get('POSITIVE', counts.get('positive', 0))`: matching is
exact, the count of "POSITIVE" is used alone whenever any such row
exists, the count of "positive" is used only as a fallback when no
row is labelled "POSITIVE", other spellings are never counted, and absent
labels contribute 0 rather than failing; symmetrically for negative. -/
theorem c3_exact_label_percentages (rows : List Row) :
    positive_percentage rows
        = ((if 0 < labelCount rows "POSITIVE".toList then labelCount rows "POSITIVE".toList
            else labelCount rows "positive".toList : ℕ) : ℚ) / (rows.length : ℚ) * 100
      ∧ negative_percentage rows
        = ((if 0 < labelCount rows "NEGATIVE".toList then labelCount rows "NEGATIVE".toList
            else labelCount rows "negative".toList : ℕ) : ℚ) / (rows.length : ℚ) * 100
      ∧ (labelCount rows "POSITIVE".toList = 0 → labelCount rows "positive".toList = 0 →
          positive_percentage rows = 0)
      ∧ (labelCount rows "NEGATIVE".toList = 0 → labelCount rows "negative".toList = 0 →
          negative_percentage rows = 0) := by
  refine ⟨pos_pct_eq rows, neg_pct_eq rows, ?_, ?_⟩
  · intro h1 h2
    rw [pos_pct_eq rows, h1, h2]
    norm_num
  · intro h1 h2
    rw [neg_pct_eq rows, h1, h2]
    norm_num

/-- Witness for C3's amended statement: a table with no positively
labelled row (under either exact spelling) reports 0 percent positive. -/
theorem c3_witness : positive_percentage [rowNeg] = 0 :=
  (c3_exact_label_percentages [rowNeg]).2.2.1 (by decide) (by decide)

/-- C3 counterexample to the claim as stated: on a row labelled
"Positive" the implementation reports 0 while the case-insensitive
formula of the spec reports 100. -/
theorem c3_counterexample :
    positive_percentage [rowCap] ≠ specPositivePercentage [rowCap] := by
  have h1 : labelCount [rowCap] "POSITIVE".toList = 0 := by decide
  have h2 : labelCount [rowCap] "positive".toList = 0 := by decide
  have hL : positive_percentage [rowCap] = 0 := by
    rw [pos_pct_eq [rowCap], h1, h2]
    norm_num
  have hR : specPositivePercentage [rowCap] = 100 := by
    unfold specPositivePercentage
    have h3 : (([rowCap].map (·.sentiment_label)).countP
        (fun l => decide (lowerStr l = "positive".toList))) = 1 := by decide
    rw [h3]
    norm_num
  rw [hL, hR]
  norm_num

theorem count_pair_le {α : Type} [BEq α] [LawfulBEq α] (a b : α) (hab : a ≠ b) (l : List α) :
    l.count a + l.count b ≤ l.length := by
  induction l with
  | nil => simp
  | cons x l ih =>
    simp only [List.count_cons, List.length_cons, beq_iff_eq]
    split_ifs with h1 h2 h2
    · exact absurd ((eq_of_beq h1).symm.trans (eq_of_beq h2)) hab
    · omega
    · omega
    · omega

theorem pct_bounds_aux (a n : ℕ) (hn : 0 < n) (h : a ≤ n) :
    0 ≤ (a : ℚ) / (n : ℚ) * 100 ∧ (a : ℚ) / (n : ℚ) * 100 ≤ 100 := by
  have hnq : (0 : ℚ) < (n : ℚ) := by exact_mod_cast hn
  constructor
  · positivity
  · rw [div_mul_eq_mul_div, div_le_iff₀ hnq]
    have haq : (a : ℚ) ≤ (n : ℚ) := by exact_mod_cast h
    nlinarith

theorem pct_sum_aux (a b n : ℕ) (hn : 0 < n) (h : a + b ≤ n) :
    (a : ℚ) / (n : ℚ) * 100 + (b : ℚ) / (n : ℚ) * 100 ≤ 100 := by
  have hnq : (0 : ℚ) < (n : ℚ) := by exact_mod_cast hn
  have hab : (a : ℚ) + (b : ℚ) ≤ (n : ℚ) := by exact_mod_cast h
  rw [div_mul_eq_mul_div, div_mul_eq_mul_div, div_add_div_same, div_le_iff₀ hnq]
  nlinarith

theorem labelCount_le (rows : List Row) (lab : PyStr) :
    labelCount rows lab ≤ rows.length := by
  unfold labelCount
  simpa [List.length_map] using List.count_le_length lab (rows.map (·.sentiment_label))

theorem labelCount_pair_le (rows : List Row) (a b : PyStr) (hab : a ≠ b) :
    labelCount rows a + labelCount rows b ≤ rows.length := by
  unfold labelCount
  simpa [List.length_map] using count_pair_le a b hab (rows.map (·.sentiment_label))

/-- C6: both CSV-path percentages lie in [0, 100] and sum to at most 100,
and a table whose labels are all exactly "POSITIVE" reports 100 percent
positive and 0 percent negative. -/
theorem c6_percentage_bounds (rows : List Row) (hne : rows ≠ []) :
    0 ≤ positive_percentage rows
      ∧ positive_percentage rows ≤ 100
      ∧ 0 ≤ negative_percentage rows
      ∧ negative_percentage rows ≤ 100
      ∧ positive_percentage rows + negative_percentage rows ≤ 100
      ∧ ((∀ r ∈ rows, r.sentiment_label = "POSITIVE".toList) →
          positive_percentage rows = 100 ∧ negative_percentage rows = 0) := by
  have hlen : 0 < rows.length := List.length_pos.2 hne
  have hnq : (0 : ℚ) < (rows.length : ℚ) := by exact_mod_cast hlen
  have hposle : (if 0 < labelCount rows "POSITIVE".toList then labelCount rows "POSITIVE".toList
      else labelCount rows "positive".toList) ≤ rows.length := by
    split_ifs <;> exact labelCount_le rows _
  have hnegle : (if 0 < labelCount rows "NEGATIVE".toList then labelCount rows "NEGATIVE".toList
      else labelCount rows "negative".toList) ≤ rows.length := by
    split_ifs <;> exact labelCount_le rows _
  have hsum : (if 0 < labelCount rows "POSITIVE".toList then labelCount rows "POSITIVE".toList
        else labelCount rows "positive".toList)
      + (if 0 < labelCount rows "NEGATIVE".toList then labelCount rows "NEGATIVE".toList
        else labelCount rows "negative".toList) ≤ rows.length := by
    split_ifs
    · exact labelCount_pair_le rows _ _ (by decide)
    · exact labelCount_pair_le rows _ _ (by decide)
    · exact labelCount_pair_le rows _ _ (by decide)
    · exact labelCount_pair_le rows _ _ (by decide)
  rw [pos_pct_eq rows, neg_pct_eq rows]
  refine ⟨(pct_bounds_aux _ _ hlen hposle).1, (pct_bounds_aux _ _ hlen hposle).2,
    (pct_bounds_aux _ _ hlen hnegle).1, (pct_bounds_aux _ _ hlen hnegle).2,
    pct_sum_aux _ _ _ hlen hsum, ?_⟩
  intro hall
  have hcP : labelCount rows "POSITIVE".toList = rows.length := by
    unfold labelCount
    have h := List.count_eq_length.2 (fun b hb => by
      rcases List.mem_map.1 hb with ⟨r, hr, rfl⟩
      exact (hall r hr).symm)
    simpa [List.length_map] using h
  have hcN : labelCount rows "NEGATIVE".toList = 0 := by
    unfold labelCount
    apply List.count_eq_zero.2
    intro hmem
    rcases List.mem_map.1 hmem with ⟨r, hr, habs⟩
    have := hall r hr
    rw [this] at habs
    exact absurd habs (by decide)
  have hcn : labelCount rows "negative".toList = 0 := by
    unfold labelCount
    apply List.count_eq_zero.2
    intro hmem
    rcases List.mem_map.1 hmem with ⟨r, hr, habs⟩
    have := hall r hr
    rw [this] at habs
    exact absurd habs (by decide)
  constructor
  · rw [hcP, if_pos hlen, div_self hnq.ne']
    norm_num
  · rw [hcN, hcn]
    simp

/-- Witness for C6: on a one-row all-"POSITIVE" table the bounds hold
and the percentages are exactly 100 and 0. -/
theorem c6_witness :
    0 ≤ positive_percentage [rowPos] ∧ positive_percentage [rowPos] ≤ 100
      ∧ 0 ≤ negative_percentage [rowPos] ∧ negative_percentage [rowPos] ≤ 100
      ∧ positive_percentage [rowPos] + negative_percentage [rowPos] ≤ 100
      ∧ (positive_percentage [rowPos] = 100 ∧ negative_percentage [rowPos] = 0) := by
  have h := c6_percentage_bounds [rowPos] (by decide)
  exact ⟨h.1, h.2.1, h.2.2.1, h.2.2.2.1, h.2.2.2.2.1, h.2.2.2.2.2 (by decide)⟩

theorem pyWordsAux_ws (c : Char) (hc : c.isWhitespace = true) (a : PyStr) :
    ∀ (acc : PyStr) (b : PyStr),
      pyWordsAux acc (a ++ c :: b) = pyWordsAux acc a ++ pyWordsAux [] b := by
  induction a with
  | nil =>
    intro acc b
    simp [pyWordsAux, hc]
  | cons d a ih =>
    intro acc b
    by_cases hd : d.isWhitespace <;> simp [pyWordsAux, hd, ih]

theorem lowerStr_append (x y : PyStr) : lowerStr (x ++ y) = lowerStr x ++ lowerStr y :=
  List.map_append _ x y

theorem lowerStr_joinSpace (l : List PyStr) :
    lowerStr (joinSpace l) = joinSpace (l.map lowerStr) := by
  induction l with
  | nil => rfl
  | cons s rest ih =>
    cases rest with
    | nil => rfl
    | cons t r =>
      have hsp : Char.toLower ' ' = ' ' := by decide
      calc lowerStr (joinSpace (s :: t :: r))
          = lowerStr s ++ Char.toLower ' ' :: lowerStr (joinSpace (t :: r)) := by
            rw [show joinSpace (s :: t :: r) = s ++ ' ' :: joinSpace (t :: r) from rfl,
              lowerStr_append]
            rfl
        _ = lowerStr s ++ ' ' :: joinSpace (List.map lowerStr (t :: r)) := by rw [hsp, ih]
        _ = joinSpace (List.map lowerStr (s :: t :: r)) := rfl

theorem pyWords_joinSpace (l : List PyStr) :
    pyWords (joinSpace l) = l.flatMap pyWords := by
  induction l with
  | nil => rfl
  | cons s rest ih =>
    cases rest with
    | nil => simp [joinSpace]
    | cons t r =>
      show pyWords (s ++ ' ' :: joinSpace (t :: r)) = _
      unfold pyWords
      rw [pyWordsAux_ws ' ' (by decide) s [] (joinSpace (t :: r))]
      have ih2 : pyWordsAux [] (joinSpace (t :: r)) = (t :: r).flatMap pyWords := ih
      rw [ih2, List.flatMap_cons]
      rfl

theorem tokensOf_eq_fieldTokens (rows : List Row) :
    tokensOf rows = fieldTokens rows := by
  unfold tokensOf fieldTokens allText
  rw [lowerStr_joinSpace, pyWords_joinSpace, List.map_map, List.flatMap_map]
  rfl

theorem mem_valueCounts {l : List PyStr} {w : PyStr} {c : ℕ}
    (h : (w, c) ∈ valueCounts l) : w ∈ l ∧ c = l.count w := by
  unfold valueCounts at h
  rcases List.mem_map.1 h with ⟨s, hs, heq⟩
  cases heq
  exact ⟨List.mem_dedup.1 hs, rfl⟩

/-- C7: every entry of the word-frequency output is a token longer than
two characters that is not a stop word; there are at most 20 entries; and
each entry's count is that token's exact number of occurrences in the
lower-cased whitespace tokenization of the filtered rows' `comment`
fields (the code tokenizes the space-joined comments, which the
`tokensOf_eq_fieldTokens` bridge shows is the same thing). -/
theorem c7_word_frequency (rows : List Row) :
    (word_freq rows).length ≤ 20
      ∧ ∀ w c, (w, c) ∈ word_freq rows →
          w ∉ stop_words ∧ 2 < w.length ∧ c = (fieldTokens rows).count w := by
  constructor
  · exact List.length_take_le _ _
  · intro w c hwc
    have h1 : (w, c) ∈ List.insertionSort (fun a b : PyStr × ℕ => b.2 ≤ a.2)
        (valueCounts (keptWords rows)) := List.mem_of_mem_take hwc
    have h2 : (w, c) ∈ valueCounts (keptWords rows) := (List.mem_insertionSort _).1 h1
    obtain ⟨hwk, hc⟩ := mem_valueCounts h2
    have hp := (List.mem_filter.1 hwk).2
    have hp2 : w ∉ stop_words ∧ 2 < w.length := by simpa using hp
    refine ⟨hp2.1, hp2.2, ?_⟩
    rw [hc]
    unfold keptWords
    have hcf : ((tokensOf rows).filter
        (fun w => decide (w ∉ stop_words ∧ 2 < w.length))).count w
          = (tokensOf rows).count w := List.count_filter hp
    rw [hcf, tokensOf_eq_fieldTokens]

/-- Witness for C7 at a concrete one-row table: the output length bound
holds and the entry for "great" counts its single occurrence. -/
theorem c7_witness :
    (word_freq [rowPos]).length ≤ 20
      ∧ 1 = (fieldTokens [rowPos]).count "great".toList := by
  have h := c7_word_frequency [rowPos]
  exact ⟨h.1, (h.2 "great".toList 1 (by decide)).2.2⟩

theorem zipRows_map {β : Type} (l : List β) (f g h k : β → CVal) :
    zipRows (l.map f) (l.map g) (l.map h) (l.map k)
      = l.map (fun r => ⟨f r, g r, h r, k r⟩) := by
  induction l with
  | nil => rfl
  | cons x l ih => simp [List.map_cons, zipRows, ih]

theorem na_values_not_numeric : ∀ v ∈ naValues, parseDecimal v = none := by decide

theorem inferColumn_num (cells : List PyStr)
    (h : ∀ c ∈ cells, isNA c = true ∨ (parseDecimal c).isSome = true) :
    inferColumn cells = cells.map (fun c =>
      if isNA c then CVal.vNaN
      else
        match parseDecimal c with
        | some q => CVal.vNum q
        | none => if isInfCell c then CVal.vInf (infIsNeg c) else CVal.vNaN) := by
  unfold inferColumn
  have hall : cells.all (fun c => isNA c || (parseDecimal c).isSome || isInfCell c) = true := by
    simp only [List.all_eq_true, Bool.or_eq_true]
    intro c hc
    exact Or.inl (h c hc)
  rw [if_pos hall]

theorem inferColumn_str (cells : List PyStr) (hne : cells ≠ [])
    (h : ∀ c ∈ cells, stableStr c) :
    inferColumn cells = cells.map CVal.vStr := by
  obtain ⟨c0, hc0⟩ := List.exists_mem_of_ne_nil cells hne
  obtain ⟨h1, h2, h2i, h3, h4⟩ := h c0 hc0
  have hnum : ¬ (cells.all
      (fun c => isNA c || (parseDecimal c).isSome || isInfCell c) = true) := by
    simp only [List.all_eq_true, Bool.or_eq_true]
    intro hall
    rcases hall c0 hc0 with (hna | hps) | hinf
    · rw [isNA, decide_eq_true_eq] at hna
      exact h1 hna
    · rw [h2] at hps
      simp at hps
    · simp [h2i] at hinf
  have hbool : ¬ (cells.all
      (fun c => isNA c || decide (c ∈ trueStrings) || decide (c ∈ falseStrings)) = true) := by
    simp only [List.all_eq_true, Bool.or_eq_true]
    intro hall
    rcases hall c0 hc0 with (hna | ht) | hf
    · rw [isNA, decide_eq_true_eq] at hna
      exact h1 hna
    · rw [decide_eq_true_eq] at ht
      exact h3 ht
    · rw [decide_eq_true_eq] at hf
      exact h4 hf
  unfold inferColumn
  rw [if_neg hnum, if_neg hbool]
  apply List.map_congr_left
  intro c hc
  have hna : isNA c = false := by
    rw [isNA]
    exact decide_eq_false (h c hc).1
  simp [hna]

